import Mathlib

/-!
# Repospector: inspection resource handlers, password-reset initiation, dashboard filters

A shallow embedding of

* `src/app/api/inspections/[id]/route.js` (`verifyToken`, `GET`, `PUT`, `DELETE`),
* `src/app/api/forgot-password/route.js` (`POST`),
* `src/app/dashboard/page.js` (`applyFilters`).

The document database is a list of documents per collection, in natural order; the
Mongoose calls used by the handlers (`findOne`, `findOneAndUpdate`, `findOneAndDelete`,
`create`, `deleteOne`) act on the first matching document.  Everything the handlers obtain
from outside (signature check of the session token, whether a store or mail call resolves
or throws, what the store makes of a body with update operators, the runtime's
`toLowerCase`, the random reset token, `subDays` of date-fns in the browser's zone) is an
explicit input, so each handler is a total function from that environment, the stored data
and the request to a response and the new stored data.
-/

set_option autoImplicit false

namespace Repospector

/-! ## Stored documents -/

/-- Inspection document (`@/models/Inspection`).  `_id` is the record identity, `userId` the
owner reference; `date` is the instant `new Date(inspection.date)` denotes, in milliseconds
since the epoch; `content` stands for the remaining descriptive fields. -/
structure Inspection where
  _id : String
  userId : String
  projectName : String
  address : String
  date : Int
  reportType : String
  content : String
deriving DecidableEq, Repr

/-- Aggregate counter document (`@/models/Info`): per-user running count of inspections. -/
structure Info where
  userId : String
  totalInspections : Int
deriving DecidableEq, Repr

/-- The two collections the inspection route touches. -/
structure Store where
  inspections : List Inspection
  infos : List Info
deriving DecidableEq, Repr

/-- The store keeps `_id` unique inside a collection. -/
def Store.wf (s : Store) : Prop :=
  (s.inspections.map (fun d => d._id)).Nodup

instance (s : Store) : Decidable s.wf := by
  unfold Store.wf; infer_instance

/-- A plain document of inspection fields: a partial inspection.  A field that is `none` is not
carried.  `_id` is not among the fields: the store refuses an update that would change it,
which is the case of the environment in which the update call throws. -/
structure Patch where
  userId : Option String
  projectName : Option String
  address : Option String
  date : Option Int
  reportType : Option String
  content : Option String
deriving DecidableEq, Repr

/-- Body of `PUT` as parsed by `req.json()` and handed to `findOneAndUpdate` unchanged.
`fields` is a JSON object without update operators whose carried inspection fields have values
of the field's type; Mongoose turns it into a `$set` of every carried schema path.  `other` is
any other parsed JSON, given by its text: a document with update operators (`$set`, `$unset`,
`$rename`, ...), alone or beside plain keys, a document that sets a field to `null`, or a
pipeline; what such an update makes of the matched document is decided by the store
(`Env.otherUpdate`). -/
inductive UpdateDoc where
  | fields (patch : Patch)
  | other (json : String)
deriving DecidableEq, Repr

/-- The part of the `Inspection` schema declaration (not among the sources) that decides what
an update may write: whether the path `userId` is declared `immutable`, in which case
Mongoose drops it from the update document. -/
structure InspectionSchema where
  userIdImmutable : Bool
deriving DecidableEq, Repr

/-! ## Store operations -/

/-- Query `{ _id: id, userId }`. -/
def matchesQuery (id userId : String) (d : Inspection) : Bool :=
  d._id == id && d.userId == userId

/-- `Inspection.findOne({ _id: id, userId })`: the first matching document, or null. -/
def findOne (docs : List Inspection) (id userId : String) : Option Inspection :=
  docs.find? (matchesQuery id userId)

/-- Replace the first element satisfying `p` by its image under `f`. -/
def modifyFirst {α : Type} (p : α → Bool) (f : α → α) : List α → List α
  | [] => []
  | a :: as => if p a then f a :: as else a :: modifyFirst p f as

/-- The update built from a plain document of fields: every carried path is set. -/
def applyPatch (sch : InspectionSchema) (p : Patch) (d : Inspection) : Inspection :=
  { _id := d._id
    userId := if sch.userIdImmutable then d.userId else p.userId.getD d.userId
    projectName := p.projectName.getD d.projectName
    address := p.address.getD d.address
    date := p.date.getD d.date
    reportType := p.reportType.getD d.reportType
    content := p.content.getD d.content }

/-- `Inspection.findOneAndUpdate({ _id: id, userId }, updatedData, { new: true })`, with
`update` what the store makes of a document under `updatedData`: the updated document (or
null) and the collection afterwards. -/
def findOneAndUpdate (docs : List Inspection) (id userId : String)
    (update : Inspection → Inspection) : Option Inspection × List Inspection :=
  ((findOne docs id userId).map update, modifyFirst (matchesQuery id userId) update docs)

/-- `Inspection.findOneAndDelete({ _id: id, userId })`: the removed document (or null) and
the collection afterwards. -/
def findOneAndDelete (docs : List Inspection) (id userId : String) :
    Option Inspection × List Inspection :=
  (findOne docs id userId, docs.eraseP (matchesQuery id userId))

/-- `Info.findOneAndUpdate({ userId }, { $inc: { totalInspections: -1 } })`: the first counter
document of the user is decremented; with no such document nothing is written (no upsert). -/
def decrementInfo (infos : List Info) (userId : String) : List Info :=
  modifyFirst (fun i => i.userId == userId)
    (fun i => { i with totalInspections := i.totalInspections + (-1) }) infos

/-- The caller's aggregate counter: `totalInspections` of the user's first `Info` document. -/
def counterOf (infos : List Info) (userId : String) : Option Int :=
  (infos.find? (fun i => i.userId == userId)).map (fun i => i.totalInspections)

/-! ## Requests, responses, environment -/

/-- Errors `jwt.verify` passes to its callback. -/
inductive VerifyError where
  | JsonWebTokenError
  | TokenExpiredError
  | NotBeforeError
deriving DecidableEq, Repr

/-- JSON bodies the handlers send. -/
inductive Body where
  | error (text : String)
  | message (text : String)
  | inspection (doc : Inspection)
deriving DecidableEq, Repr

/-- A `NextResponse.json(body, { status })`. -/
structure Response where
  status : Nat
  body : Body
deriving DecidableEq, Repr

/-- A request to `/api/inspections/{id}`: `id` is `req.url.split("/").pop()`, `token` the
value of the cookie `token` when the cookie is present, `body` the result of `req.json()`
(`none` when parsing the body throws). -/
structure Request where
  id : String
  token : Option String
  body : Option UpdateDoc
deriving DecidableEq, Repr

/-- What the inspection handlers get from outside: the schema, what the store makes of a
document under a body that is not a plain document of fields (a document such an update leaves
without `userId` is one no query of this route matches, and is given an owner value that is no
user's id), the
outcome of `jwt.verify(token, JWT_SECRET, ...)` (the decoded `userId`, or the error), and for
each awaited store call whether it resolves (`true`) or throws (`false`). -/
structure Env where
  schema : InspectionSchema
  otherUpdate : String → Inspection → Inspection
  jwtVerify : String → Except VerifyError String
  connectDB : Bool
  inspectionCall : Bool
  infoCall : Bool

/-- What the store makes of the matched document under the body of `PUT`.  The store never
changes `_id`. -/
def applyUpdate (env : Env) (updatedData : UpdateDoc) (d : Inspection) : Inspection :=
  match updatedData with
  | .fields patch => applyPatch env.schema patch d
  | .other json => { env.otherUpdate json d with _id := d._id }

/-- The helper `verifyToken`: the promise resolves with the decoded `userId` or rejects with
the error of `jwt.verify`. -/
def verifyToken (env : Env) (token : String) : Except VerifyError String :=
  env.jwtVerify token

def authRequired : Response := ⟨401, .error "Authentication required"⟩

def notFound : Response := ⟨404, .error "Inspection not found"⟩

/-- JavaScript `!token` for the optional cookie value: absent or the empty string. -/
def noToken : Option String → Bool
  | none => true
  | some t => t == ""

/-! ## Handlers of `/api/inspections/{id}`

The result is `none` when the handler itself throws: `await connectDB()` stands outside the
`try` block.  Every other exception is caught and answered with the handler's 500 body. -/

/-- The handler `GET`. -/
def GET (env : Env) (s : Store) (req : Request) : Option Response :=
  if !env.connectDB then none
  else if noToken req.token then some authRequired
  else
    match verifyToken env (req.token.getD "") with
    | .error _ => some ⟨500, .error "Failed to fetch inspection"⟩
    | .ok userId =>
      if !env.inspectionCall then some ⟨500, .error "Failed to fetch inspection"⟩
      else
        match findOne s.inspections req.id userId with
        | none => some notFound
        | some inspection => some ⟨200, .inspection inspection⟩

/-- The handler `PUT`. -/
def PUT (env : Env) (s : Store) (req : Request) : Option Response × Store :=
  if !env.connectDB then (none, s)
  else if noToken req.token then (some authRequired, s)
  else
    match verifyToken env (req.token.getD "") with
    | .error _ => (some ⟨500, .error "Failed to update inspection"⟩, s)
    | .ok userId =>
      match req.body with
      | none => (some ⟨500, .error "Failed to update inspection"⟩, s)
      | some updatedData =>
        if !env.inspectionCall then (some ⟨500, .error "Failed to update inspection"⟩, s)
        else
          match findOneAndUpdate s.inspections req.id userId (applyUpdate env updatedData) with
          | (none, _) => (some notFound, s)
          | (some inspection, docs) =>
            (some ⟨200, .inspection inspection⟩, { s with inspections := docs })

/-- The handler `DELETE`. -/
def DELETE (env : Env) (s : Store) (req : Request) : Option Response × Store :=
  if !env.connectDB then (none, s)
  else if noToken req.token then (some authRequired, s)
  else
    match verifyToken env (req.token.getD "") with
    | .error _ => (some ⟨500, .error "Failed to delete inspection"⟩, s)
    | .ok userId =>
      if !env.inspectionCall then (some ⟨500, .error "Failed to delete inspection"⟩, s)
      else
        match findOneAndDelete s.inspections req.id userId with
        | (none, _) => (some notFound, s)
        | (some _, docs) =>
          if !env.infoCall then
            (some ⟨500, .error "Failed to delete inspection"⟩, { s with inspections := docs })
          else
            (some ⟨200, .message "Inspection deleted successfully"⟩,
             { inspections := docs, infos := decrementInfo s.infos userId })

/-! ## Password reset initiation: `POST /api/forgot-password` -/

/-- Credential store record (`@/models/User`). -/
structure User where
  _id : String
  email : String
  name : String
deriving DecidableEq, Repr

/-- Reset token record (`@/models/ResetToken`): the owning user and the random value. -/
structure ResetToken where
  userId : String
  token : String
deriving DecidableEq, Repr

/-- The two collections the password-reset route touches. -/
structure ResetStore where
  users : List User
  tokens : List ResetToken
deriving DecidableEq, Repr

/-- External calls `POST` makes, in the order it makes them (a call that throws is recorded
too). -/
inductive Effect where
  | connectDB
  | userFindOne (email : String)
  | tokenCreate (userId token : String)
  | createTransporter
  | sendMail (recipient resetUrl : String)
  | tokenDeleteOne (token : String)
deriving DecidableEq, Repr

/-- What `POST` gets from outside: the runtime's `String.prototype.toLowerCase`, for each
awaited call whether it resolves (`true`) or throws (`false`), the value of
`crypto.randomBytes(32).toString("hex")`, and `process.env.NEXT_PUBLIC_APP_URL`. -/
structure ResetEnv where
  toLowerCase : String → String
  connectDB : Bool
  userCall : Bool
  randomToken : String
  tokenCreate : Bool
  createTransporter : Bool
  sendMail : Bool
  tokenDelete : Bool
  appUrl : String

/-- Result of one run of `POST`: the response, the token collection afterwards and the
external calls made. -/
structure ResetResult where
  response : Response
  tokens : List ResetToken
  effects : List Effect
deriving DecidableEq, Repr

def genericMessage : Response :=
  ⟨200, .message "If an account exists with this email, you will receive a password reset link."⟩

def sendFailure : Response :=
  ⟨500, .error "Failed to send reset email. Please try again later."⟩

def processingFailure : Response :=
  ⟨500, .error "Error processing password reset request"⟩

/-- `User.findOne({ email })`. -/
def findUser (users : List User) (email : String) : Option User :=
  users.find? (fun u => u.email == email)

/-- `ResetToken.deleteOne({ token })`: removes the first record carrying the value. -/
def deleteOne (tokens : List ResetToken) (token : String) : List ResetToken :=
  tokens.eraseP (fun r => r.token == token)

/-- The reset link put into the mail. -/
def resetUrl (env : ResetEnv) (token : String) : String :=
  env.appUrl ++ "/reset-password?token=" ++ token

/-- The inner `catch (emailError)`: delete the token, then answer 500.  When the delete itself
throws, the outer `catch` answers and the record stays. -/
def onEmailError (env : ResetEnv) (tokens : List ResetToken) (token : String)
    (effects : List Effect) : ResetResult :=
  if !env.tokenDelete then
    ⟨processingFailure, tokens, effects ++ [.tokenDeleteOne token]⟩
  else
    ⟨sendFailure, deleteOne tokens token, effects ++ [.tokenDeleteOne token]⟩

/-- The handler `POST`.  `email` is the `email` member of the parsed body; `none` stands for a
body that does not parse or whose `email` is not a string, where `email.toLowerCase()`
throws. -/
def POST (env : ResetEnv) (s : ResetStore) (email : Option String) : ResetResult :=
  if !env.connectDB then ⟨processingFailure, s.tokens, [.connectDB]⟩
  else
    match email with
    | none => ⟨processingFailure, s.tokens, [.connectDB]⟩
    | some email =>
      let lookup : List Effect := [.connectDB, .userFindOne (env.toLowerCase email)]
      if !env.userCall then ⟨processingFailure, s.tokens, lookup⟩
      else
        match findUser s.users (env.toLowerCase email) with
        | none => ⟨genericMessage, s.tokens, lookup⟩
        | some user =>
          let token := env.randomToken
          let created : List Effect := lookup ++ [.tokenCreate user._id token]
          if !env.tokenCreate then ⟨processingFailure, s.tokens, created⟩
          else
            let tokens := s.tokens ++ [⟨user._id, token⟩]
            if !env.createTransporter then
              onEmailError env tokens token (created ++ [.createTransporter])
            else if !env.sendMail then
              onEmailError env tokens token
                (created ++ [.createTransporter, .sendMail user.email (resetUrl env token)])
            else
              ⟨genericMessage, tokens,
               created ++ [.createTransporter, .sendMail user.email (resetUrl env token)]⟩

/-- Number of reset-token records created during a run. -/
def tokensCreated (effects : List Effect) : Nat :=
  effects.countP (fun e => match e with | .tokenCreate _ _ => true | _ => false)

/-- Number of reset-token records created for the given user during a run. -/
def tokensCreatedFor (userId : String) (effects : List Effect) : Nat :=
  effects.countP (fun e => match e with | .tokenCreate u _ => u == userId | _ => false)

/-- Number of delivery attempts during a run: entries into the delivery block, which begins
with `createTransporter()`. -/
def deliveryAttempts (effects : List Effect) : Nat :=
  effects.countP (fun e => match e with | .createTransporter => true | _ => false)

/-- Number of `transporter.sendMail` calls during a run. -/
def mailsSent (effects : List Effect) : Nat :=
  effects.countP (fun e => match e with | .sendMail _ _ => true | _ => false)

/-- Number of accesses to the credential store during a run (`User.findOne`). -/
def credentialStoreAccesses (effects : List Effect) : Nat :=
  effects.countP (fun e => match e with | .userFindOne _ => true | _ => false)

/-- Number of accesses to the reset-token store during a run (`ResetToken.create`,
`ResetToken.deleteOne`). -/
def tokenStoreAccesses (effects : List Effect) : Nat :=
  effects.countP (fun e =>
    match e with
    | .tokenCreate _ _ => true
    | .tokenDeleteOne _ => true
    | _ => false)

/-! ## Dashboard: `applyFilters` -/

/-- The dashboard's `activeFilters`. -/
structure Filters where
  dateRange : String
  reportType : String
  sortBy : String
deriving DecidableEq, Repr

/-- The lookup `{ "7days": 7, "30days": 30, "90days": 90 }[filters.dateRange]` for the keys the
filter menu offers; any other key of the menu has no entry. -/
def days (dateRange : String) : Option Nat :=
  if dateRange = "7days" then some 7
  else if dateRange = "30days" then some 30
  else if dateRange = "90days" then some 90
  else none

/-- The comparator handed to `sort`. -/
def compareDates (sortBy : String) (a b : Inspection) : Int :=
  if sortBy = "newest" then b.date - a.date else a.date - b.date

/-- The order a stable sort with `compareDates` establishes: `a` may stand before `b`. -/
def sortsBefore (sortBy : String) (a b : Inspection) : Prop :=
  compareDates sortBy a b ≤ 0

instance (sortBy : String) : DecidableRel (sortsBefore sortBy) := by
  intro a b; unfold sortsBefore; infer_instance

/-- The date-range step of `applyFilters`.  `subDays` is the function of date-fns, on instants
in milliseconds: it subtracts calendar days in the zone of the browser, which the dashboard
takes from outside. -/
def dateRangeFilter (subDays : Int → Nat → Int) (today : Int) (dateRange : String)
    (filtered : List Inspection) : List Inspection :=
  if dateRange != "all" then
    match days dateRange with
    | some n =>
      if n != 0 then
        filtered.filter (fun inspection => decide (inspection.date ≥ subDays today n))
      else filtered
    | none => filtered
  else filtered

/-- The report-type step of `applyFilters`. -/
def reportTypeFilter (reportType : String) (filtered : List Inspection) : List Inspection :=
  if reportType != "all" then
    filtered.filter (fun inspection => inspection.reportType == reportType)
  else filtered

/-- `applyFilters(data, filters)` with `today = new Date()`: the list handed to
`setFilteredInspections`.  `Array.prototype.sort` is stable; a stable sort by a comparator is
insertion sort by it. -/
def applyFilters (subDays : Int → Nat → Int) (today : Int) (data : List Inspection)
    (filters : Filters) : List Inspection :=
  let filtered := dateRangeFilter subDays today filters.dateRange data
  let filtered := reportTypeFilter filters.reportType filtered
  filtered.insertionSort (sortsBefore filters.sortBy)

/-- The composition the specification compares `applyFilters` with: the report-type step
first, the date-range step second, then the same sort. -/
def applyFiltersSwapped (subDays : Int → Nat → Int) (today : Int) (data : List Inspection)
    (filters : Filters) : List Inspection :=
  let filtered := reportTypeFilter filters.reportType data
  let filtered := dateRangeFilter subDays today filters.dateRange filtered
  filtered.insertionSort (sortsBefore filters.sortBy)

/-! ## Sequences of requests to the inspection route -/

/-- One request to `/api/inspections/{id}` together with the environment it runs in. -/
inductive Call where
  | get (env : Env) (req : Request)
  | put (env : Env) (req : Request)
  | delete (env : Env) (req : Request)

/-- The store after one request. -/
def Call.step (s : Store) : Call → Store
  | .get _ _ => s
  | .put env req => (PUT env s req).2
  | .delete env req => (DELETE env s req).2

/-- The store after a sequence of requests, handled one after the other. -/
def runCalls (s : Store) (calls : List Call) : Store :=
  calls.foldl Call.step s

/-! ## Statement vocabulary -/

/-- Identity and owner of every stored inspection, in store order. -/
def owners (s : Store) : List (String × String) :=
  s.inspections.map (fun d => (d._id, d.userId))

/-- No stored inspection has the given id. -/
def idUnused (id : String) (s : Store) : Prop :=
  ∀ x ∈ s.inspections, x._id ≠ id

/-- The selection of the dashboard as the specification words it: the date-range condition
(`all`, or the date is not before now minus 7, 30 or 90 days, the bound included) and the
report-type condition (`all`, or the types are equal).  "Now minus n days" is `subDays` of the
current time. -/
def selected (subDays : Int → Nat → Int) (today : Int) (filters : Filters) (i : Inspection) :
    Bool :=
  (filters.dateRange == "all"
    || (filters.dateRange == "7days" && decide (subDays today 7 ≤ i.date))
    || (filters.dateRange == "30days" && decide (subDays today 30 ≤ i.date))
    || (filters.dateRange == "90days" && decide (subDays today 90 ≤ i.date)))
  && (filters.reportType == "all" || i.reportType == filters.reportType)

/-! ## Sample data -/

/-- A signature check that accepts two sessions and rejects an expired and any other token. -/
def sampleVerify (token : String) : Except VerifyError String :=
  if token = "session-alice" then .ok "alice"
  else if token = "session-bob" then .ok "bob"
  else if token = "session-old" then .error .TokenExpiredError
  else .error .JsonWebTokenError

/-- An environment in which every call resolves and `userId` is a plain schema path; the
samples send it plain documents of fields only. -/
def sampleEnv : Env :=
  { schema := ⟨false⟩, otherUpdate := fun _ d => d, jwtVerify := sampleVerify,
    connectDB := true, inspectionCall := true, infoCall := true }

def bridge : Inspection :=
  ⟨"i1", "alice", "Bridge", "1 Main St", 1730000000000, "PROGRESS", "deck"⟩

def tower : Inspection :=
  ⟨"i2", "alice", "Tower", "2 High St", 1729000000000, "FINAL", "roof"⟩

def depot : Inspection :=
  ⟨"i3", "bob", "Depot", "3 Low St", 1728000000000, "FINAL", "yard"⟩

def sampleStore : Store :=
  { inspections := [bridge, tower, depot], infos := [⟨"alice", 2⟩, ⟨"bob", 1⟩] }

/-- An inspection dated 40 days of 86400000 ms before the instant 1730000000000. -/
def archive : Inspection :=
  ⟨"i4", "alice", "Archive", "4 Old St", 1726544000000, "FINAL", "vault"⟩

/-- Day subtraction in a zone whose offset does not change: a day is 86400000 ms. -/
def fixedOffsetSubDays (date : Int) (amount : Nat) : Int :=
  date - (amount : Int) * 86400000

/-- A body that carries only a new address. -/
def addressPatch : UpdateDoc :=
  .fields { userId := none, projectName := none, address := some "9 New Rd", date := none,
            reportType := none, content := none }

/-- A body that carries another user's id in `userId`. -/
def ownerPatch : UpdateDoc :=
  .fields { userId := some "mallory", projectName := none, address := none, date := none,
            reportType := none, content := none }

/-- The sample environment with the counter update throwing. -/
def infoDownEnv : Env :=
  { schema := ⟨false⟩, otherUpdate := fun _ d => d, jwtVerify := sampleVerify,
    connectDB := true, inspectionCall := true, infoCall := false }

/-- A store in which Alice has an inspection but no counter document. -/
def uncountedStore : Store :=
  { inspections := [bridge], infos := [⟨"bob", 1⟩] }

/-- Lowercasing of the letters A to Z, which is what `toLowerCase` of the runtime does on a
string of ASCII characters. -/
def asciiLowerCase (s : String) : String :=
  ⟨s.data.map Char.toLower⟩

/-- A reset environment in which every call resolves. -/
def sampleResetEnv : ResetEnv :=
  { toLowerCase := asciiLowerCase, connectDB := true, userCall := true, randomToken := "5f2a",
    tokenCreate := true, createTransporter := true, sendMail := true, tokenDelete := true,
    appUrl := "https://app.example" }

/-- The sample reset environment with `sendMail` throwing. -/
def mailDownEnv : ResetEnv :=
  { toLowerCase := asciiLowerCase, connectDB := true, userCall := true, randomToken := "5f2a",
    tokenCreate := true, createTransporter := true, sendMail := false, tokenDelete := true,
    appUrl := "https://app.example" }

def ann : User := ⟨"u1", "ann@example.com", "Ann"⟩

/-- One registered user and one reset token of an earlier request. -/
def sampleResetStore : ResetStore :=
  { users := [ann], tokens := [⟨"u1", "77c0"⟩] }

/-! ## Lemmas on the store operations -/

theorem matchesQuery_iff (id userId : String) (d : Inspection) :
    matchesQuery id userId d = true ↔ d._id = id ∧ d.userId = userId := by
  simp [matchesQuery]

theorem findOne_eq_none_iff (docs : List Inspection) (id userId : String) :
    findOne docs id userId = none ↔ ∀ x ∈ docs, x._id = id → x.userId ≠ userId := by
  simp [findOne, List.find?_eq_none, matchesQuery_iff]

theorem findOne_absent (docs : List Inspection) (id userId : String)
    (h : ∀ x ∈ docs, x._id ≠ id) : findOne docs id userId = none := by
  rw [findOne_eq_none_iff]
  intro x hx hid
  exact absurd hid (h x hx)

theorem eq_of_id_eq {docs : List Inspection} (hnd : (docs.map (fun d => d._id)).Nodup)
    {x y : Inspection} (hx : x ∈ docs) (hy : y ∈ docs) (h : x._id = y._id) : x = y :=
  List.inj_on_of_nodup_map hnd hx hy h

theorem findOne_foreign (s : Store) (d : Inspection) (userId : String) (hwf : s.wf)
    (hd : d ∈ s.inspections) (hne : userId ≠ d.userId) :
    findOne s.inspections d._id userId = none := by
  rw [findOne_eq_none_iff]
  intro x hx hid hown
  have hxd : x = d := eq_of_id_eq hwf hx hd hid
  exact hne (by rw [← hown, hxd])

theorem findOne_own (s : Store) (d : Inspection) (hwf : s.wf) (hd : d ∈ s.inspections) :
    findOne s.inspections d._id d.userId = some d := by
  cases hf : findOne s.inspections d._id d.userId with
  | none =>
    rw [findOne_eq_none_iff] at hf
    exact absurd rfl (hf d hd rfl)
  | some x =>
    have hx : x ∈ s.inspections := List.mem_of_find?_eq_some hf
    have hm : matchesQuery d._id d.userId x = true := List.find?_some hf
    rw [matchesQuery_iff] at hm
    rw [eq_of_id_eq hwf hx hd hm.1]

theorem modifyFirst_of_forall_not {α : Type} (p : α → Bool) (f : α → α) (l : List α)
    (h : ∀ a ∈ l, p a = false) : modifyFirst p f l = l := by
  induction l with
  | nil => rfl
  | cons a as ih =>
    have ha : p a = false := h a (List.mem_cons_self a as)
    simp [modifyFirst, ha, ih (fun b hb => h b (List.mem_cons_of_mem a hb))]

theorem findOne_none_forall {docs : List Inspection} {id userId : String}
    (h : findOne docs id userId = none) : ∀ a ∈ docs, matchesQuery id userId a = false := by
  intro a ha
  have := List.find?_eq_none.mp h a ha
  simpa using this

theorem findOneAndUpdate_none (docs : List Inspection) (id userId : String)
    (update : Inspection → Inspection) (h : findOne docs id userId = none) :
    findOneAndUpdate docs id userId update = (none, docs) := by
  simp [findOneAndUpdate, h, modifyFirst_of_forall_not _ _ _ (findOne_none_forall h)]

theorem findOneAndDelete_none (docs : List Inspection) (id userId : String)
    (h : findOne docs id userId = none) : findOneAndDelete docs id userId = (none, docs) := by
  have hall : ∀ a ∈ docs, ¬ matchesQuery id userId a = true := by
    intro a ha
    simp [findOne_none_forall h a ha]
  simp [findOneAndDelete, h, List.eraseP_of_forall_not hall]

/-! ## The handlers for a caller whose session verifies -/

theorem GET_ok (env : Env) (s : Store) (id tok u : String)
    (body : Option UpdateDoc)
    (htok : tok ≠ "") (hu : env.jwtVerify tok = .ok u)
    (hc : env.connectDB = true) (hq : env.inspectionCall = true) :
    GET env s ⟨id, some tok, body⟩ =
      match findOne s.inspections id u with
      | none => some notFound
      | some inspection => some ⟨200, .inspection inspection⟩ := by
  simp [GET, noToken, verifyToken, htok, hu, hc, hq]

theorem GET_none (env : Env) (s : Store) (id tok u : String)
    (body : Option UpdateDoc)
    (hu : env.jwtVerify tok = .ok u) (h : findOne s.inspections id u = none) :
    GET env s ⟨id, some tok, body⟩ =
      if !env.connectDB then none
      else if tok == "" then some authRequired
      else if !env.inspectionCall then some ⟨500, .error "Failed to fetch inspection"⟩
      else some notFound := by
  simp only [GET, noToken, verifyToken, Option.getD_some, hu, h]

theorem PUT_none (env : Env) (s : Store) (id tok u : String)
    (body : Option UpdateDoc)
    (hu : env.jwtVerify tok = .ok u) (h : findOne s.inspections id u = none) :
    PUT env s ⟨id, some tok, body⟩ =
      if !env.connectDB then (none, s)
      else if tok == "" then (some authRequired, s)
      else if body.isNone || !env.inspectionCall then
        (some ⟨500, .error "Failed to update inspection"⟩, s)
      else (some notFound, s) := by
  cases body with
  | none => simp [PUT, noToken, verifyToken, hu]
  | some p =>
    simp only [PUT, noToken, verifyToken, Option.getD_some, hu,
      findOneAndUpdate_none _ _ _ _ h]
    simp

theorem DELETE_none (env : Env) (s : Store) (id tok u : String)
    (body : Option UpdateDoc)
    (hu : env.jwtVerify tok = .ok u) (h : findOne s.inspections id u = none) :
    DELETE env s ⟨id, some tok, body⟩ =
      if !env.connectDB then (none, s)
      else if tok == "" then (some authRequired, s)
      else if !env.inspectionCall then (some ⟨500, .error "Failed to delete inspection"⟩, s)
      else (some notFound, s) := by
  simp only [DELETE, noToken, verifyToken, Option.getD_some, hu, findOneAndDelete_none _ _ _ h]

/-! ## C1: another user's inspection is answered like a missing one -/

/-- C1. For a caller whose session verifies to a user other than the owner of the stored
inspection `d`, `GET`, `PUT` and `DELETE` on `d._id` answer exactly what they answer on an id
that no stored inspection has, whatever the store calls and the body do; and when the store
calls resolve (and the body of `PUT` parses) that answer is the 404 "Inspection not found"
response. -/
theorem foreign_inspection_is_not_found (env : Env) (s : Store) (d : Inspection)
    (tok u missing : String) (body : Option UpdateDoc)
    (hwf : s.wf) (hd : d ∈ s.inspections) (htok : tok ≠ "")
    (hu : env.jwtVerify tok = .ok u) (hne : u ≠ d.userId)
    (hmissing : ∀ x ∈ s.inspections, x._id ≠ missing) :
    (GET env s ⟨d._id, some tok, body⟩ = GET env s ⟨missing, some tok, body⟩
      ∧ PUT env s ⟨d._id, some tok, body⟩ = PUT env s ⟨missing, some tok, body⟩
      ∧ DELETE env s ⟨d._id, some tok, body⟩ = DELETE env s ⟨missing, some tok, body⟩)
    ∧ (env.connectDB = true → env.inspectionCall = true →
        GET env s ⟨d._id, some tok, body⟩ = some notFound
        ∧ (body.isSome = true → PUT env s ⟨d._id, some tok, body⟩ = (some notFound, s))
        ∧ DELETE env s ⟨d._id, some tok, body⟩ = (some notFound, s)) := by
  have h1 : findOne s.inspections d._id u = none := findOne_foreign s d u hwf hd hne
  have h2 : findOne s.inspections missing u = none := findOne_absent _ _ _ hmissing
  refine ⟨⟨?_, ?_, ?_⟩, ?_⟩
  · rw [GET_none env s _ tok u body hu h1, GET_none env s _ tok u body hu h2]
  · rw [PUT_none env s _ tok u body hu h1, PUT_none env s _ tok u body hu h2]
  · rw [DELETE_none env s _ tok u body hu h1, DELETE_none env s _ tok u body hu h2]
  · intro hc hq
    refine ⟨?_, ?_, ?_⟩
    · rw [GET_none env s _ tok u body hu h1]; simp [hc, hq, htok]
    · intro hb
      rw [PUT_none env s _ tok u body hu h1]
      cases body with
      | none => simp at hb
      | some p => simp [hc, hq, htok]
    · rw [DELETE_none env s _ tok u body hu h1]; simp [hc, hq, htok]

/-- Witness for C1: Bob asks for Alice's inspection `i1` and for the unused id `i9`. -/
theorem foreign_inspection_is_not_found_witness :
    (GET sampleEnv sampleStore ⟨"i1", some "session-bob", some addressPatch⟩
        = GET sampleEnv sampleStore ⟨"i9", some "session-bob", some addressPatch⟩
      ∧ PUT sampleEnv sampleStore ⟨"i1", some "session-bob", some addressPatch⟩
        = PUT sampleEnv sampleStore ⟨"i9", some "session-bob", some addressPatch⟩
      ∧ DELETE sampleEnv sampleStore ⟨"i1", some "session-bob", some addressPatch⟩
        = DELETE sampleEnv sampleStore ⟨"i9", some "session-bob", some addressPatch⟩)
    ∧ (sampleEnv.connectDB = true → sampleEnv.inspectionCall = true →
        GET sampleEnv sampleStore ⟨"i1", some "session-bob", some addressPatch⟩ = some notFound
        ∧ ((some addressPatch).isSome = true →
            PUT sampleEnv sampleStore ⟨"i1", some "session-bob", some addressPatch⟩
              = (some notFound, sampleStore))
        ∧ DELETE sampleEnv sampleStore ⟨"i1", some "session-bob", some addressPatch⟩
            = (some notFound, sampleStore)) :=
  foreign_inspection_is_not_found sampleEnv sampleStore bridge "session-bob" "bob" "i9"
    (some addressPatch) (by decide) (by decide) (by decide) rfl (by decide) (by decide)

/-! ## C2: the status for a missing and for a rejected session token -/

/-- C2 (evaluation of the handlers). With the database reachable, a request without the cookie
`token` is answered 401 by `GET`, `PUT` and `DELETE`, but a request whose token `jwt.verify`
rejects (malformed or expired alike) falls into the handler's `catch` and is answered 500: the
status is not 401 and differs from the one for a missing token. -/
theorem rejected_token_answers_500 (env : Env) (s : Store) (id tok : String)
    (body : Option UpdateDoc) (e : VerifyError)
    (hc : env.connectDB = true) (htok : tok ≠ "") (hv : env.jwtVerify tok = .error e) :
    (GET env s ⟨id, none, body⟩ = some authRequired
      ∧ PUT env s ⟨id, none, body⟩ = (some authRequired, s)
      ∧ DELETE env s ⟨id, none, body⟩ = (some authRequired, s))
    ∧ GET env s ⟨id, some tok, body⟩ = some ⟨500, .error "Failed to fetch inspection"⟩
    ∧ PUT env s ⟨id, some tok, body⟩ = (some ⟨500, .error "Failed to update inspection"⟩, s)
    ∧ DELETE env s ⟨id, some tok, body⟩
        = (some ⟨500, .error "Failed to delete inspection"⟩, s) := by
  refine ⟨⟨?_, ?_, ?_⟩, ?_, ?_, ?_⟩
  · simp [GET, noToken, hc]
  · simp [PUT, noToken, hc]
  · simp [DELETE, noToken, hc]
  · simp [GET, noToken, verifyToken, hc, htok, hv]
  · simp [PUT, noToken, verifyToken, hc, htok, hv]
  · simp [DELETE, noToken, verifyToken, hc, htok, hv]

/-- Witness for C2: an expired session token on Alice's inspection `i1`. -/
theorem rejected_token_answers_500_witness :
    (GET sampleEnv sampleStore ⟨"i1", none, none⟩ = some authRequired
      ∧ PUT sampleEnv sampleStore ⟨"i1", none, none⟩ = (some authRequired, sampleStore)
      ∧ DELETE sampleEnv sampleStore ⟨"i1", none, none⟩ = (some authRequired, sampleStore))
    ∧ GET sampleEnv sampleStore ⟨"i1", some "session-old", none⟩
        = some ⟨500, .error "Failed to fetch inspection"⟩
    ∧ PUT sampleEnv sampleStore ⟨"i1", some "session-old", none⟩
        = (some ⟨500, .error "Failed to update inspection"⟩, sampleStore)
    ∧ DELETE sampleEnv sampleStore ⟨"i1", some "session-old", none⟩
        = (some ⟨500, .error "Failed to delete inspection"⟩, sampleStore) :=
  rejected_token_answers_500 sampleEnv sampleStore "i1" "session-old" none
    .TokenExpiredError rfl (by decide) rfl

/-! ## C3: the owner reference under `PUT` -/

theorem map_modifyFirst {α β : Type} (g : α → β) (p : α → Bool) (f : α → α) (l : List α)
    (h : ∀ a, p a = true → g (f a) = g a) : (modifyFirst p f l).map g = l.map g := by
  induction l with
  | nil => rfl
  | cons a as ih =>
    by_cases ha : p a = true
    · simp [modifyFirst, ha, h a ha]
    · simp [modifyFirst, ha, ih]

/-- C3, as stated, fails: with `userId` a plain schema path, Alice's `PUT` on her inspection
`i1` with a body carrying `userId: "mallory"` is answered 200 and the stored inspection `i1`
is owned by `mallory` afterwards. -/
theorem put_can_change_owner :
    owners sampleStore = [("i1", "alice"), ("i2", "alice"), ("i3", "bob")]
    ∧ owners (PUT sampleEnv sampleStore ⟨"i1", some "session-alice", some ownerPatch⟩).2
        = [("i1", "mallory"), ("i2", "alice"), ("i3", "bob")]
    ∧ (PUT sampleEnv sampleStore ⟨"i1", some "session-alice", some ownerPatch⟩).1
        = some ⟨200, .inspection { bridge with userId := "mallory" }⟩
    ∧ owners (PUT sampleEnv sampleStore ⟨"i1", some "session-alice", some ownerPatch⟩).2
        ≠ owners sampleStore := by
  decide

theorem applyUpdate_id (env : Env) (b : UpdateDoc) (d : Inspection) :
    (applyUpdate env b d)._id = d._id := by
  cases b <;> rfl

theorem modifyFirst_pointwise {α : Type} (p : α → Bool) (f : α → α) (l : List α) :
    List.Forall₂ (fun a b => b = a ∨ (p a = true ∧ b = f a)) l (modifyFirst p f l) := by
  induction l with
  | nil => exact List.Forall₂.nil
  | cons a as ih =>
    by_cases ha : p a = true
    · simp only [modifyFirst, ha, if_true]
      exact List.Forall₂.cons (Or.inr ⟨ha, rfl⟩)
        (List.forall₂_same.mpr (fun x _ => Or.inl rfl))
    · simp only [modifyFirst, ha]
      exact List.Forall₂.cons (Or.inl rfl) ih

theorem PUT_inspections (env : Env) (s : Store) (req : Request) :
    (PUT env s req).2.inspections = s.inspections
    ∨ ∃ u b, verifyToken env (req.token.getD "") = .ok u ∧ req.body = some b
        ∧ (PUT env s req).2.inspections
          = modifyFirst (matchesQuery req.id u) (applyUpdate env b) s.inspections := by
  unfold PUT
  split
  · exact Or.inl rfl
  split
  · exact Or.inl rfl
  split
  · exact Or.inl rfl
  rename_i userId hu
  split
  · exact Or.inl rfl
  rename_i updatedData hbody
  split
  · exact Or.inl rfl
  split
  · exact Or.inl rfl
  rename_i inspection docs hres
  simp only [findOneAndUpdate, Prod.mk.injEq] at hres
  exact Or.inr ⟨userId, updatedData, hu, hbody, hres.2.symm⟩

/-- C3, amended. Whatever the body, `PUT` leaves every stored inspection as it was except at
most an inspection with the requested id that the caller owns, and that one keeps its `_id`:
the owner of an inspection is never changed by a request of another user.  For a body that is
a plain document of fields (no update operator, no `null`), the identity and owner of every
stored inspection are as before whenever the body carries no `userId`, or carries the caller's
own user id, or the schema declares `userId` immutable. -/
theorem put_preserves_owner (env : Env) (s : Store) (req : Request) :
    List.Forall₂
        (fun before after => after = before
          ∨ (before._id = req.id
              ∧ verifyToken env (req.token.getD "") = .ok before.userId
              ∧ after._id = before._id))
        s.inspections (PUT env s req).2.inspections
    ∧ ((∀ b, req.body = some b → ∃ p, b = .fields p ∧ ∀ v, p.userId = some v →
          env.schema.userIdImmutable = true ∨ verifyToken env (req.token.getD "") = .ok v) →
        owners (PUT env s req).2 = owners s) := by
  rcases PUT_inspections env s req with heq | ⟨u, b, hu, hbody, heq⟩
  · refine ⟨?_, fun _ => ?_⟩
    · rw [heq]
      exact List.forall₂_same.mpr (fun x _ => Or.inl rfl)
    · unfold owners
      rw [heq]
  · refine ⟨?_, fun h => ?_⟩
    · rw [heq]
      refine List.Forall₂.imp ?_ (modifyFirst_pointwise _ _ _)
      intro before after hba
      rcases hba with h1 | ⟨hm, h2⟩
      · exact Or.inl h1
      · rw [matchesQuery_iff] at hm
        refine Or.inr ⟨hm.1, ?_, ?_⟩
        · rw [hu, hm.2]
        · rw [h2, applyUpdate_id]
    · obtain ⟨p, hb, hp⟩ := h b hbody
      subst hb
      unfold owners
      rw [heq]
      apply map_modifyFirst
      intro a ha
      rw [matchesQuery_iff] at ha
      have hown : (applyPatch env.schema p a).userId = a.userId := by
        cases hpu : p.userId with
        | none => simp [applyPatch, hpu]
        | some v =>
          rcases hp v hpu with himm | hv
          · simp [applyPatch, himm]
          · rw [hu] at hv
            have : u = v := by injection hv
            simp [applyPatch, hpu, ← this, ha.2]
      show ((applyPatch env.schema p a)._id, (applyPatch env.schema p a).userId)
          = (a._id, a.userId)
      rw [hown]
      rfl

/-- Witness for C3 amended: Alice changes the address of her inspection `i1`. -/
theorem put_preserves_owner_witness :
    List.Forall₂
        (fun before after => after = before
          ∨ (before._id = "i1"
              ∧ verifyToken sampleEnv ((some "session-alice").getD "") = .ok before.userId
              ∧ after._id = before._id))
        sampleStore.inspections
        (PUT sampleEnv sampleStore ⟨"i1", some "session-alice", some addressPatch⟩).2.inspections
    ∧ owners (PUT sampleEnv sampleStore ⟨"i1", some "session-alice", some addressPatch⟩).2
        = owners sampleStore :=
  have h := put_preserves_owner sampleEnv sampleStore
    ⟨"i1", some "session-alice", some addressPatch⟩
  ⟨h.1, h.2 (by
    intro b hb
    have hb2 : addressPatch = b := by injection hb
    subst hb2
    exact ⟨_, rfl, by intro v hv; simp at hv⟩)⟩

/-! ## C4: a throwing counter update in `DELETE` -/

theorem DELETE_found (env : Env) (s : Store) (id tok u : String)
    (body : Option UpdateDoc)
    (d : Inspection) (htok : tok ≠ "") (hu : env.jwtVerify tok = .ok u)
    (hc : env.connectDB = true) (hq : env.inspectionCall = true)
    (hf : findOne s.inspections id u = some d) :
    DELETE env s ⟨id, some tok, body⟩ =
      if !env.infoCall then
        (some ⟨500, .error "Failed to delete inspection"⟩,
         { s with inspections := s.inspections.eraseP (matchesQuery id u) })
      else
        (some ⟨200, .message "Inspection deleted successfully"⟩,
         { inspections := s.inspections.eraseP (matchesQuery id u),
           infos := decrementInfo s.infos u }) := by
  simp [DELETE, noToken, verifyToken, findOneAndDelete, htok, hu, hc, hq, hf]

theorem decrementInfo_of_no_counter (infos : List Info) (u : String)
    (h : counterOf infos u = none) : decrementInfo infos u = infos := by
  apply modifyFirst_of_forall_not
  intro a ha
  simp only [counterOf, Option.map_eq_none'] at h
  have := List.find?_eq_none.mp h a ha
  simpa using this

/-- C4, as stated, fails: Alice deletes her inspection `i1` while the counter update throws;
the inspection is removed, yet the response is the 500 "Failed to delete inspection", not the
200 success message. -/
theorem delete_surfaces_counter_failure :
    DELETE infoDownEnv sampleStore ⟨"i1", some "session-alice", none⟩
      = (some ⟨500, .error "Failed to delete inspection"⟩,
         { inspections := [tower, depot], infos := sampleStore.infos })
    ∧ (DELETE infoDownEnv sampleStore ⟨"i1", some "session-alice", none⟩).1
      ≠ some ⟨200, .message "Inspection deleted successfully"⟩ := by
  decide

/-- C4, amended. For an inspection the caller owns, with the database reachable: when the
counter update throws, the inspection stays deleted, no counter is changed and `DELETE`
answers 500 "Failed to delete inspection"; when the counter update resolves but the caller has
no counter document, nothing is decremented and `DELETE` still answers the 200 success
message. -/
theorem delete_counter_step (env : Env) (s : Store) (id tok u : String)
    (body : Option UpdateDoc)
    (d : Inspection) (htok : tok ≠ "") (hu : env.jwtVerify tok = .ok u)
    (hc : env.connectDB = true) (hq : env.inspectionCall = true)
    (hf : findOne s.inspections id u = some d) :
    (env.infoCall = false →
      DELETE env s ⟨id, some tok, body⟩ =
        (some ⟨500, .error "Failed to delete inspection"⟩,
         { inspections := s.inspections.eraseP (matchesQuery id u), infos := s.infos }))
    ∧ (env.infoCall = true → counterOf s.infos u = none →
      DELETE env s ⟨id, some tok, body⟩ =
        (some ⟨200, .message "Inspection deleted successfully"⟩,
         { inspections := s.inspections.eraseP (matchesQuery id u), infos := s.infos })) := by
  rw [DELETE_found env s id tok u body d htok hu hc hq hf]
  constructor
  · intro hi
    simp [hi]
  · intro hi hnone
    simp [hi, decrementInfo_of_no_counter _ _ hnone]

/-- Witness for C4 amended: Alice deletes `i1` from a store that has no counter document for
her. -/
theorem delete_counter_step_witness :
    (sampleEnv.infoCall = false →
      DELETE sampleEnv uncountedStore ⟨"i1", some "session-alice", none⟩ =
        (some ⟨500, .error "Failed to delete inspection"⟩,
         { inspections := uncountedStore.inspections.eraseP (matchesQuery "i1" "alice"),
           infos := uncountedStore.infos }))
    ∧ (sampleEnv.infoCall = true → counterOf uncountedStore.infos "alice" = none →
      DELETE sampleEnv uncountedStore ⟨"i1", some "session-alice", none⟩ =
        (some ⟨200, .message "Inspection deleted successfully"⟩,
         { inspections := uncountedStore.inspections.eraseP (matchesQuery "i1" "alice"),
           infos := uncountedStore.infos })) :=
  delete_counter_step sampleEnv uncountedStore "i1" "session-alice" "alice" none bridge
    (by decide) rfl rfl rfl (by decide)

/-! ## C5: `DELETE` followed by `GET` -/

theorem eraseP_owner_absent (docs : List Inspection) (d : Inspection)
    (hnd : (docs.map (fun d => d._id)).Nodup) (hd : d ∈ docs) :
    ∀ x ∈ docs.eraseP (matchesQuery d._id d.userId), x._id ≠ d._id := by
  induction docs with
  | nil => simp at hd
  | cons a as ih =>
    simp only [List.map_cons, List.nodup_cons] at hnd
    have hfresh : ∀ y ∈ as, y._id ≠ a._id := by
      intro y hy heq
      exact hnd.1 (by rw [← heq]; exact List.mem_map_of_mem (fun d => d._id) hy)
    by_cases hm : matchesQuery d._id d.userId a = true
    · intro x hx
      rw [List.eraseP_cons_of_pos hm] at hx
      rw [matchesQuery_iff] at hm
      rw [← hm.1]
      exact hfresh x hx
    · have hda : d ≠ a := by
        intro heq
        apply hm
        rw [← heq]
        simp [matchesQuery]
      have hdas : d ∈ as := by
        rcases List.mem_cons.mp hd with h | h
        · exact absurd h hda
        · exact h
      intro x hx
      rw [List.eraseP_cons_of_neg hm] at hx
      rcases List.mem_cons.mp hx with h | h
      · rw [h]
        exact fun heq => hfresh d hdas heq.symm
      · exact ih hnd.2 hdas x h

theorem mem_modifyFirst {α : Type} (p : α → Bool) (f : α → α) (l : List α) (x : α)
    (h : x ∈ modifyFirst p f l) : x ∈ l ∨ ∃ a ∈ l, x = f a := by
  induction l with
  | nil => simp [modifyFirst] at h
  | cons a as ih =>
    by_cases ha : p a = true
    · simp only [modifyFirst, ha, if_true, List.mem_cons] at h
      rcases h with h | h
      · exact Or.inr ⟨a, List.mem_cons_self a as, h⟩
      · exact Or.inl (List.mem_cons_of_mem a h)
    · have h' : x = a ∨ x ∈ modifyFirst p f as := by
        simpa [modifyFirst, ha] using h
      rcases h' with hxa | hxas
      · exact Or.inl (List.mem_cons.mpr (Or.inl hxa))
      · rcases ih hxas with h1 | ⟨b, hb, hx⟩
        · exact Or.inl (List.mem_cons_of_mem a h1)
        · exact Or.inr ⟨b, List.mem_cons_of_mem a hb, hx⟩

theorem DELETE_inspections (env : Env) (s : Store) (req : Request) :
    (DELETE env s req).2.inspections = s.inspections
    ∨ ∃ u, (DELETE env s req).2.inspections
        = s.inspections.eraseP (matchesQuery req.id u) := by
  unfold DELETE
  split
  · exact Or.inl rfl
  split
  · exact Or.inl rfl
  split
  · exact Or.inl rfl
  rename_i userId hu
  split
  · exact Or.inl rfl
  split
  · exact Or.inl rfl
  rename_i found docs hres
  simp only [findOneAndDelete, Prod.mk.injEq] at hres
  split
  · exact Or.inr ⟨userId, hres.2.symm⟩
  · exact Or.inr ⟨userId, hres.2.symm⟩

theorem idUnused_step (id : String) (s : Store) (c : Call) (h : idUnused id s) :
    idUnused id (c.step s) := by
  cases c with
  | get env req => exact h
  | put env req =>
    intro x hx
    rcases PUT_inspections env s req with heq | ⟨u, b, _, _, heq⟩
    · exact h x (by simpa [Call.step, heq] using hx)
    · have hx2 : x ∈ modifyFirst (matchesQuery req.id u) (applyUpdate env b)
          s.inspections := by simpa [Call.step, heq] using hx
      rcases mem_modifyFirst _ _ _ _ hx2 with h1 | ⟨a, ha, hxa⟩
      · exact h x h1
      · rw [hxa, applyUpdate_id]
        exact h a ha
  | delete env req =>
    intro x hx
    rcases DELETE_inspections env s req with heq | ⟨u, heq⟩
    · exact h x (by simpa [Call.step, heq] using hx)
    · have hx2 : x ∈ s.inspections.eraseP (matchesQuery req.id u) := by
        simpa [Call.step, heq] using hx
      exact h x (List.mem_of_mem_eraseP hx2)

theorem idUnused_runCalls (id : String) (calls : List Call) (s : Store) (h : idUnused id s) :
    idUnused id (runCalls s calls) := by
  induction calls generalizing s with
  | nil => exact h
  | cons c cs ih => exact ih (c.step s) (idUnused_step id s c h)

theorem wf_eraseP (s : Store) (p : Inspection → Bool) (hwf : s.wf) :
    ((s.inspections.eraseP p).map (fun d => d._id)).Nodup :=
  List.Nodup.sublist (List.Sublist.map _ (List.eraseP_sublist s.inspections)) hwf

/-- C5. For a stored inspection `d` and a caller whose session verifies to its owner, with the
store calls resolving: `DELETE` on `d._id` answers the 200 success message; after it, and after
any further sequence of requests to this route, a `GET` of `d._id` by that caller whose store
call resolves answers 404 "Inspection not found"; and every other inspection of the caller is
still returned by `GET` with status 200. -/
theorem delete_then_get (env : Env) (s : Store) (d : Inspection) (tok : String)
    (body : Option UpdateDoc) (hwf : s.wf) (hd : d ∈ s.inspections) (htok : tok ≠ "")
    (hu : env.jwtVerify tok = .ok d.userId)
    (hc : env.connectDB = true) (hq : env.inspectionCall = true) (hi : env.infoCall = true) :
    (DELETE env s ⟨d._id, some tok, body⟩).1
        = some ⟨200, .message "Inspection deleted successfully"⟩
    ∧ (∀ (later : List Call) (env' : Env) (tok' : String) (body' : Option UpdateDoc),
        tok' ≠ "" → env'.jwtVerify tok' = .ok d.userId →
        env'.connectDB = true → env'.inspectionCall = true →
        GET env' (runCalls (DELETE env s ⟨d._id, some tok, body⟩).2 later)
          ⟨d._id, some tok', body'⟩ = some notFound)
    ∧ (∀ d' ∈ s.inspections, d'.userId = d.userId → d' ≠ d →
        GET env (DELETE env s ⟨d._id, some tok, body⟩).2 ⟨d'._id, some tok, body⟩
          = some ⟨200, .inspection d'⟩) := by
  have hf : findOne s.inspections d._id d.userId = some d := findOne_own s d hwf hd
  rw [DELETE_found env s d._id tok d.userId body d htok hu hc hq hf]
  simp only [hi, Bool.not_true, Bool.false_eq_true, if_false]
  refine ⟨trivial, ?_, ?_⟩
  · intro later env' tok' body' htok' hu' hc' hq'
    rw [GET_ok env' _ d._id tok' d.userId body' htok' hu' hc' hq']
    have hun : idUnused d._id
        { inspections := s.inspections.eraseP (matchesQuery d._id d.userId),
          infos := decrementInfo s.infos d.userId } :=
      eraseP_owner_absent s.inspections d hwf hd
    rw [findOne_absent _ _ _ (idUnused_runCalls d._id later _ hun)]
  · intro d' hd' hown hne
    rw [GET_ok env _ d'._id tok d.userId body htok hu hc hq]
    have hnm : ¬ matchesQuery d._id d.userId d' = true := by
      rw [matchesQuery_iff]
      intro hm
      exact hne (eq_of_id_eq hwf hd' hd hm.1)
    have hmem : d' ∈ s.inspections.eraseP (matchesQuery d._id d.userId) :=
      (List.mem_eraseP_of_neg hnm).mpr hd'
    have hfind := findOne_own
      { inspections := s.inspections.eraseP (matchesQuery d._id d.userId),
        infos := decrementInfo s.infos d.userId } d' (wf_eraseP s _ hwf) hmem
    rw [hown] at hfind
    simp only at hfind
    rw [hfind]

/-- Witness for C5: Alice deletes `i1`; then `i1` is not found, also after a later update of
`i2`, and `i2` is still returned. -/
theorem delete_then_get_witness :
    (DELETE sampleEnv sampleStore ⟨"i1", some "session-alice", none⟩).1
        = some ⟨200, .message "Inspection deleted successfully"⟩
    ∧ GET sampleEnv
        (runCalls (DELETE sampleEnv sampleStore ⟨"i1", some "session-alice", none⟩).2
          [.put sampleEnv ⟨"i2", some "session-alice", some addressPatch⟩])
        ⟨"i1", some "session-alice", none⟩ = some notFound
    ∧ GET sampleEnv (DELETE sampleEnv sampleStore ⟨"i1", some "session-alice", none⟩).2
        ⟨"i2", some "session-alice", none⟩ = some ⟨200, .inspection tower⟩ :=
  have h := delete_then_get sampleEnv sampleStore bridge "session-alice" none
    (by decide) (by decide) (by decide) rfl rfl rfl rfl
  ⟨h.1, h.2.1 _ sampleEnv "session-alice" none (by decide) rfl rfl rfl,
   h.2.2 tower (by decide) rfl (by decide)⟩

/-! ## C6: the aggregate counter under `DELETE` -/

theorem counterOf_decrementInfo (infos : List Info) (u : String) :
    counterOf (decrementInfo infos u) u = (counterOf infos u).map (fun n => n - 1) := by
  induction infos with
  | nil => rfl
  | cons a as ih =>
    by_cases ha : (a.userId == u) = true
    · simp [counterOf, decrementInfo, modifyFirst, ha, Int.sub_eq_add_neg]
    · simp only [counterOf, decrementInfo] at ih
      simp [counterOf, decrementInfo, modifyFirst, ha, ih]

theorem DELETE_cases (env : Env) (s : Store) (req : Request) :
    (∃ r, r.status ≠ 200 ∧ r.status ≠ 404 ∧ (DELETE env s req).1 = some r)
    ∨ (DELETE env s req).1 = none
    ∨ DELETE env s req = (some notFound, s)
    ∨ ∃ u, verifyToken env (req.token.getD "") = .ok u
        ∧ DELETE env s req = (some ⟨200, .message "Inspection deleted successfully"⟩,
            { inspections := s.inspections.eraseP (matchesQuery req.id u),
              infos := decrementInfo s.infos u }) := by
  unfold DELETE
  split
  · exact Or.inr (Or.inl rfl)
  split
  · exact Or.inl ⟨authRequired, by decide, by decide, rfl⟩
  split
  · exact Or.inl ⟨_, by decide, by decide, rfl⟩
  rename_i userId hu
  split
  · exact Or.inl ⟨_, by decide, by decide, rfl⟩
  split
  · exact Or.inr (Or.inr (Or.inl rfl))
  rename_i found docs hres
  simp only [findOneAndDelete, Prod.mk.injEq] at hres
  split
  · exact Or.inl ⟨_, by decide, by decide, rfl⟩
  · refine Or.inr (Or.inr (Or.inr ⟨userId, hu, ?_⟩))
    rw [hres.2]

/-- C6. Whenever `DELETE` answers with status 200, the counter of the caller (the user the
session verifies to) is afterwards exactly one less than before (and a caller without a counter
document still has none); whenever `DELETE` answers with status 404, the counters, and the
whole store, are unchanged. -/
theorem delete_decrements_counter (env : Env) (s : Store) (req : Request) (r : Response)
    (hr : (DELETE env s req).1 = some r) :
    (r.status = 200 → ∃ u, verifyToken env (req.token.getD "") = .ok u
        ∧ (∀ n, counterOf s.infos u = some n →
            counterOf (DELETE env s req).2.infos u = some (n - 1))
        ∧ (counterOf s.infos u = none → counterOf (DELETE env s req).2.infos u = none))
    ∧ (r.status = 404 → (DELETE env s req).2 = s) := by
  rcases DELETE_cases env s req with ⟨r', h200, h404, hr'⟩ | hnone | hnf | ⟨u, hu, hdel⟩
  · rw [hr] at hr'
    have : r = r' := by injection hr'
    subst this
    exact ⟨fun h => absurd h h200, fun h => absurd h h404⟩
  · rw [hr] at hnone
    exact absurd hnone (by simp)
  · rw [hnf] at hr ⊢
    have : notFound = r := by injection hr
    subst this
    exact ⟨fun h => absurd h (by decide), fun _ => rfl⟩
  · rw [hdel] at hr ⊢
    have : (⟨200, .message "Inspection deleted successfully"⟩ : Response) = r := by
      injection hr
    subst this
    refine ⟨fun _ => ⟨u, hu, ?_, ?_⟩, fun h => absurd h (by decide)⟩
    · intro n hn
      simp [counterOf_decrementInfo, hn]
    · intro hn
      simp [counterOf_decrementInfo, hn]

/-- Witness for C6: Alice deletes `i1`; her counter goes from 2 to 1. -/
theorem delete_decrements_counter_witness :
    (((⟨200, .message "Inspection deleted successfully"⟩ : Response).status = 200 →
      ∃ u, verifyToken sampleEnv
          ((⟨"i1", some "session-alice", none⟩ : Request).token.getD "") = .ok u
        ∧ (∀ n, counterOf sampleStore.infos u = some n →
            counterOf (DELETE sampleEnv sampleStore ⟨"i1", some "session-alice", none⟩).2.infos u
              = some (n - 1))
        ∧ (counterOf sampleStore.infos u = none →
            counterOf (DELETE sampleEnv sampleStore ⟨"i1", some "session-alice", none⟩).2.infos u
              = none))
    ∧ ((⟨200, .message "Inspection deleted successfully"⟩ : Response).status = 404 →
        (DELETE sampleEnv sampleStore ⟨"i1", some "session-alice", none⟩).2 = sampleStore))
    ∧ counterOf sampleStore.infos "alice" = some 2
    ∧ counterOf (DELETE sampleEnv sampleStore ⟨"i1", some "session-alice", none⟩).2.infos
        "alice" = some 1 :=
  ⟨delete_decrements_counter sampleEnv sampleStore ⟨"i1", some "session-alice", none⟩
    ⟨200, .message "Inspection deleted successfully"⟩ (by decide), by decide, by decide⟩

/-! ## C7: reset request for an unknown email -/

theorem findUser_eq_none (users : List User) (email : String)
    (h : ∀ u ∈ users, u.email ≠ email) : findUser users email = none := by
  simp only [findUser, List.find?_eq_none]
  intro u hu
  simpa using h u hu

/-- C7. When the email, lowercased by the runtime's `toLowerCase` (whatever it maps), matches
no user, `POST` leaves the token collection as it
was, creates no reset token, enters no delivery attempt and sends no mail (its only external
calls are the database connection and the user lookup); and when those two calls resolve, the
response is status 200 with the generic success message. -/
theorem unknown_email_no_side_effect (env : ResetEnv) (s : ResetStore) (email : String)
    (hno : ∀ u ∈ s.users, u.email ≠ env.toLowerCase email) :
    (POST env s (some email)).tokens = s.tokens
    ∧ tokensCreated (POST env s (some email)).effects = 0
    ∧ deliveryAttempts (POST env s (some email)).effects = 0
    ∧ mailsSent (POST env s (some email)).effects = 0
    ∧ (env.connectDB = true → env.userCall = true →
        (POST env s (some email)).response = genericMessage
        ∧ (POST env s (some email)).response.status = 200
        ∧ (POST env s (some email)).effects
            = [.connectDB, .userFindOne (env.toLowerCase email)]) := by
  have hf := findUser_eq_none s.users (env.toLowerCase email) hno
  cases hc : env.connectDB <;> cases hq : env.userCall <;>
    simp [POST, hf, hc, hq, tokensCreated, deliveryAttempts, mailsSent, genericMessage]

/-- Witness for C7: a reset request for an address nobody registered. -/
theorem unknown_email_no_side_effect_witness :
    (POST sampleResetEnv sampleResetStore (some "Bob@Example.com")).tokens
        = sampleResetStore.tokens
    ∧ tokensCreated (POST sampleResetEnv sampleResetStore (some "Bob@Example.com")).effects = 0
    ∧ deliveryAttempts (POST sampleResetEnv sampleResetStore (some "Bob@Example.com")).effects
        = 0
    ∧ mailsSent (POST sampleResetEnv sampleResetStore (some "Bob@Example.com")).effects = 0
    ∧ (sampleResetEnv.connectDB = true → sampleResetEnv.userCall = true →
        (POST sampleResetEnv sampleResetStore (some "Bob@Example.com")).response
            = genericMessage
        ∧ (POST sampleResetEnv sampleResetStore (some "Bob@Example.com")).response.status = 200
        ∧ (POST sampleResetEnv sampleResetStore (some "Bob@Example.com")).effects
            = [.connectDB, .userFindOne (sampleResetEnv.toLowerCase "Bob@Example.com")]) :=
  unknown_email_no_side_effect sampleResetEnv sampleResetStore "Bob@Example.com" (by decide)

/-! ## C8: reset request for a known email -/

theorem deleteOne_fresh (tokens : List ResetToken) (userId token : String)
    (hfresh : ∀ r ∈ tokens, r.token ≠ token) :
    deleteOne (tokens ++ [⟨userId, token⟩]) token = tokens := by
  unfold deleteOne
  rw [List.eraseP_append_right]
  · simp [List.eraseP]
  · intro r hr
    simpa using hfresh r hr

/-- C8. When the user lookup finds `user` for the lowercased email and the database calls up
to `ResetToken.create` resolve, one run of `POST` creates exactly one reset token, it
references `user`, and the run enters exactly one delivery attempt (at most one `sendMail`,
exactly one once the transporter is obtained).  If delivery succeeds the new record is the only
change of the token collection.  If delivery fails (the transporter cannot be obtained or
`sendMail` throws) the response has status 500, and with `deleteOne` resolving and the random
value not already stored, the token collection is again what it was before the request. -/
theorem known_email_one_token (env : ResetEnv) (s : ResetStore) (email : String) (user : User)
    (hfound : findUser s.users (env.toLowerCase email) = some user)
    (hc : env.connectDB = true) (hq : env.userCall = true) (hcreate : env.tokenCreate = true) :
    tokensCreated (POST env s (some email)).effects = 1
    ∧ tokensCreatedFor user._id (POST env s (some email)).effects = 1
    ∧ deliveryAttempts (POST env s (some email)).effects = 1
    ∧ mailsSent (POST env s (some email)).effects ≤ 1
    ∧ (env.createTransporter = true → mailsSent (POST env s (some email)).effects = 1)
    ∧ (env.createTransporter = true → env.sendMail = true →
        (POST env s (some email)).tokens = s.tokens ++ [⟨user._id, env.randomToken⟩])
    ∧ (env.createTransporter = false ∨ env.sendMail = false →
        (POST env s (some email)).response.status = 500
        ∧ (env.tokenDelete = true → (∀ r ∈ s.tokens, r.token ≠ env.randomToken) →
            (POST env s (some email)).response = sendFailure
            ∧ (POST env s (some email)).tokens = s.tokens)) := by
  cases ht : env.createTransporter <;> cases hm : env.sendMail <;>
    cases hd : env.tokenDelete <;>
    simp [POST, onEmailError, hfound, hc, hq, hcreate, ht, hm, hd,
      tokensCreated, tokensCreatedFor, deliveryAttempts, mailsSent, List.countP_cons,
      List.countP_append, processingFailure, sendFailure, deleteOne_fresh] <;>
    intro hfresh <;> exact deleteOne_fresh _ _ _ hfresh

/-- Witness for C8: Ann asks for a reset while `sendMail` throws. -/
theorem known_email_one_token_witness :
    tokensCreated (POST mailDownEnv sampleResetStore (some "Ann@Example.com")).effects = 1
    ∧ tokensCreatedFor ann._id
        (POST mailDownEnv sampleResetStore (some "Ann@Example.com")).effects = 1
    ∧ deliveryAttempts (POST mailDownEnv sampleResetStore (some "Ann@Example.com")).effects = 1
    ∧ mailsSent (POST mailDownEnv sampleResetStore (some "Ann@Example.com")).effects ≤ 1
    ∧ (mailDownEnv.createTransporter = true →
        mailsSent (POST mailDownEnv sampleResetStore (some "Ann@Example.com")).effects = 1)
    ∧ (mailDownEnv.createTransporter = true → mailDownEnv.sendMail = true →
        (POST mailDownEnv sampleResetStore (some "Ann@Example.com")).tokens
          = sampleResetStore.tokens ++ [⟨ann._id, mailDownEnv.randomToken⟩])
    ∧ (mailDownEnv.createTransporter = false ∨ mailDownEnv.sendMail = false →
        (POST mailDownEnv sampleResetStore (some "Ann@Example.com")).response.status = 500
        ∧ (mailDownEnv.tokenDelete = true →
            (∀ r ∈ sampleResetStore.tokens, r.token ≠ mailDownEnv.randomToken) →
            (POST mailDownEnv sampleResetStore (some "Ann@Example.com")).response = sendFailure
            ∧ (POST mailDownEnv sampleResetStore (some "Ann@Example.com")).tokens
                = sampleResetStore.tokens)) :=
  known_email_one_token mailDownEnv sampleResetStore "Ann@Example.com" ann
    (by decide) rfl rfl rfl

/-! ## C9: the response does not tell whether the account exists -/

/-- C9. Take one run of `POST` with an email whose lowercased form (by the runtime's
`toLowerCase`) matches no user and one run with an email whose lowercased form matches a user
and whose mail delivery succeeds, every awaited call resolving in both:
the two responses are equal, namely status 200 with the generic message. -/
theorem reset_response_hides_account (env₁ env₂ : ResetEnv) (s₁ s₂ : ResetStore)
    (email₁ email₂ : String) (user : User)
    (hno : ∀ u ∈ s₁.users, u.email ≠ env₁.toLowerCase email₁)
    (hc₁ : env₁.connectDB = true) (hq₁ : env₁.userCall = true)
    (hfound : findUser s₂.users (env₂.toLowerCase email₂) = some user)
    (hc₂ : env₂.connectDB = true) (hq₂ : env₂.userCall = true)
    (hcreate : env₂.tokenCreate = true) (ht : env₂.createTransporter = true)
    (hm : env₂.sendMail = true) :
    (POST env₁ s₁ (some email₁)).response = (POST env₂ s₂ (some email₂)).response
    ∧ (POST env₂ s₂ (some email₂)).response
        = ⟨200, .message
            "If an account exists with this email, you will receive a password reset link."⟩ := by
  have hf := findUser_eq_none s₁.users (env₁.toLowerCase email₁) hno
  simp [POST, hf, hfound, hc₁, hq₁, hc₂, hq₂, hcreate, ht, hm, genericMessage]

/-- Witness for C9: a request for Bob, who is not registered, and one for Ann, who is. -/
theorem reset_response_hides_account_witness :
    (POST sampleResetEnv sampleResetStore (some "Bob@Example.com")).response
        = (POST sampleResetEnv sampleResetStore (some "Ann@Example.com")).response
    ∧ (POST sampleResetEnv sampleResetStore (some "Ann@Example.com")).response
        = ⟨200, .message
            "If an account exists with this email, you will receive a password reset link."⟩ :=
  reset_response_hides_account sampleResetEnv sampleResetEnv sampleResetStore sampleResetStore
    "Bob@Example.com" "Ann@Example.com" ann (by decide) rfl rfl (by decide) rfl rfl rfl rfl rfl

/-! ## C10: what `applyFilters` selects and how it orders -/

theorem filters_eq_selected (subDays : Int → Nat → Int) (today : Int) (data : List Inspection)
    (filters : Filters)
    (hd : filters.dateRange ∈ ["all", "7days", "30days", "90days"]) :
    reportTypeFilter filters.reportType (dateRangeFilter subDays today filters.dateRange data)
      = data.filter (selected subDays today filters) := by
  simp only [List.mem_cons, List.mem_singleton, List.not_mem_nil, or_false] at hd
  have hdate : dateRangeFilter subDays today filters.dateRange data
      = data.filter (fun i => filters.dateRange == "all"
          || decide (subDays today ((days filters.dateRange).getD 0) ≤ i.date)) := by
    rcases hd with h | h | h | h <;> simp [dateRangeFilter, days, h]
  have htype : ∀ l : List Inspection, reportTypeFilter filters.reportType l
      = l.filter (fun i => filters.reportType == "all"
          || i.reportType == filters.reportType) := by
    intro l
    by_cases hr : filters.reportType = "all"
    · simp [reportTypeFilter, hr]
    · have hb : (filters.reportType == "all") = false := by simpa using hr
      simp [reportTypeFilter, hr, hb]
  rw [htype, hdate, List.filter_filter]
  apply List.filter_congr
  intro x _
  rcases hd with h | h | h | h <;>
    simp [selected, days, h, Bool.and_comm]

theorem sortsBefore_total (sortBy : String) : IsTotal Inspection (sortsBefore sortBy) :=
  ⟨fun a b => by unfold sortsBefore compareDates; split <;> omega⟩

theorem sortsBefore_trans (sortBy : String) : IsTrans Inspection (sortsBefore sortBy) :=
  ⟨fun a b c => by unfold sortsBefore compareDates; split <;> omega⟩

/-- C10. Whatever instants `subDays` of the browser's zone returns, for every current time,
every list and a date range among `all`, `7days`, `30days`, `90days` (and any report type and
sort key, in particular `all`/`PROGRESS`/`FINAL` and `newest`/`oldest`), the list
`applyFilters` produces is a rearrangement of exactly the input inspections that satisfy the
date-range condition (date not before now minus 7, 30 or 90 days, the bound included) and the
report-type condition; it is ordered by date, non-increasing for `newest` and non-decreasing
for `oldest`.  Scenario: of `a` (dated today, `PROGRESS`) and `b` (dated 40 days ago, `FINAL`),
where 40 days ago lies before 30 days ago and 30 days ago not after today, `30days` with report
type `all` gives `[a]`, and date range `all` with report type `FINAL` gives `[b]`. -/
theorem applyFilters_selects_and_sorts (subDays : Int → Nat → Int) (today : Int)
    (data : List Inspection) (filters : Filters)
    (hd : filters.dateRange ∈ ["all", "7days", "30days", "90days"]) :
    (applyFilters subDays today data filters).Perm
        (data.filter (selected subDays today filters))
    ∧ (filters.sortBy = "newest" →
        (applyFilters subDays today data filters).Sorted (fun x y => x.date ≥ y.date))
    ∧ (filters.sortBy = "oldest" →
        (applyFilters subDays today data filters).Sorted (fun x y => x.date ≤ y.date))
    ∧ (∀ (a b : Inspection) (sortBy : String),
        a.date = today → a.reportType = "PROGRESS" →
        b.date = subDays today 40 → b.reportType = "FINAL" →
        subDays today 40 < subDays today 30 → subDays today 30 ≤ today →
        applyFilters subDays today [a, b] ⟨"30days", "all", sortBy⟩ = [a]
        ∧ applyFilters subDays today [a, b] ⟨"all", "FINAL", sortBy⟩ = [b]) := by
  haveI := sortsBefore_total filters.sortBy
  haveI := sortsBefore_trans filters.sortBy
  have hsorted : (applyFilters subDays today data filters).Sorted
      (sortsBefore filters.sortBy) :=
    List.sorted_insertionSort _ _
  refine ⟨?_, ?_, ?_, ?_⟩
  · unfold applyFilters
    rw [← filters_eq_selected subDays today data filters hd]
    exact List.perm_insertionSort _ _
  · intro hs
    refine List.Pairwise.imp ?_ hsorted
    intro x y hxy
    simp only [sortsBefore, compareDates, hs, if_true] at hxy
    omega
  · intro hs
    refine List.Pairwise.imp ?_ hsorted
    intro x y hxy
    have hne : ¬ filters.sortBy = "newest" := by rw [hs]; decide
    simp only [sortsBefore, compareDates, hne, if_false] at hxy
    omega
  · intro a b sortBy ha hpa hb hpb h40 h30
    constructor
    · have h1 : decide (a.date ≥ subDays today 30) = true := by
        simp only [decide_eq_true_eq]; omega
      have h2 : decide (b.date ≥ subDays today 30) = false := by
        simp only [decide_eq_false_iff_not]; omega
      simp [applyFilters, dateRangeFilter, reportTypeFilter, days, List.filter, h1, h2]
    · simp [applyFilters, dateRangeFilter, reportTypeFilter, List.filter, hpa, hpb]

/-- Witness for C10: the last 30 days, final reports, oldest first, over the sample store, and
the scenario with the sample inspections `bridge` and `archive`, in a zone without offset
change. -/
theorem applyFilters_selects_and_sorts_witness :
    ((applyFilters fixedOffsetSubDays 1730000000000 sampleStore.inspections
          ⟨"30days", "FINAL", "oldest"⟩).Perm
        (sampleStore.inspections.filter
          (selected fixedOffsetSubDays 1730000000000 ⟨"30days", "FINAL", "oldest"⟩))
      ∧ applyFilters fixedOffsetSubDays 1730000000000 sampleStore.inspections
          ⟨"30days", "FINAL", "oldest"⟩ = [depot, tower])
    ∧ applyFilters fixedOffsetSubDays 1730000000000 [bridge, archive]
        ⟨"30days", "all", "newest"⟩ = [bridge]
    ∧ applyFilters fixedOffsetSubDays 1730000000000 [bridge, archive]
        ⟨"all", "FINAL", "newest"⟩ = [archive] :=
  have h := applyFilters_selects_and_sorts fixedOffsetSubDays 1730000000000
    sampleStore.inspections ⟨"30days", "FINAL", "oldest"⟩ (by decide)
  ⟨⟨h.1, by decide⟩,
   h.2.2.2 bridge archive "newest" (by decide) (by decide) (by decide) (by decide)
     (by decide) (by decide)⟩

/-! ## C11: the two filter steps commute -/

theorem dateRangeFilter_eq_filter (subDays : Int → Nat → Int) (today : Int)
    (dateRange : String) :
    ∃ p : Inspection → Bool, ∀ l, dateRangeFilter subDays today dateRange l = l.filter p := by
  by_cases hall : dateRange = "all"
  · exact ⟨fun _ => true, fun l => by simp [dateRangeFilter, hall]⟩
  · cases hdays : days dateRange with
    | none => exact ⟨fun _ => true, fun l => by simp [dateRangeFilter, hdays]⟩
    | some n =>
      by_cases hn : n = 0
      · exact ⟨fun _ => true, fun l => by simp [dateRangeFilter, hdays, hn]⟩
      · exact ⟨fun inspection => decide (inspection.date ≥ subDays today n),
          fun l => by simp [dateRangeFilter, hall, hdays, hn]⟩

theorem reportTypeFilter_eq_filter (reportType : String) :
    ∃ p : Inspection → Bool, ∀ l, reportTypeFilter reportType l = l.filter p := by
  by_cases hall : reportType = "all"
  · exact ⟨fun _ => true, fun l => by simp [reportTypeFilter, hall]⟩
  · exact ⟨fun inspection => inspection.reportType == reportType,
      fun l => by simp [reportTypeFilter, hall]⟩

theorem filter_steps_commute (subDays : Int → Nat → Int) (today : Int)
    (dateRange reportType : String) (l : List Inspection) :
    dateRangeFilter subDays today dateRange (reportTypeFilter reportType l)
      = reportTypeFilter reportType (dateRangeFilter subDays today dateRange l) := by
  obtain ⟨p, hp⟩ := dateRangeFilter_eq_filter subDays today dateRange
  obtain ⟨q, hq⟩ := reportTypeFilter_eq_filter reportType
  rw [hq l, hp (l.filter q), hp l, hq (l.filter p), List.filter_filter, List.filter_filter]
  apply List.filter_congr
  intro x _
  exact Bool.and_comm _ _

/-- C11. For every list of inspections, every current time, every filter configuration and
whatever `subDays` of the browser's zone returns, filtering by report type first and by date
range second and then sorting gives the same list as `applyFilters`, which filters by date
range first and by report type second. -/
theorem applyFilters_filter_order (subDays : Int → Nat → Int) (today : Int)
    (data : List Inspection) (filters : Filters) :
    applyFiltersSwapped subDays today data filters = applyFilters subDays today data filters := by
  unfold applyFiltersSwapped applyFilters
  simp only [filter_steps_commute]

/-! ## C12: a malformed email in the reset request -/

/-- C12, as stated, fails: the string `not-an-email` has no `@`, yet `POST` looks it up in the
credential store and answers status 200 with the generic message, not a 4xx validation
error. -/
theorem malformed_email_is_looked_up :
    '@' ∉ "not-an-email".data
    ∧ (POST sampleResetEnv sampleResetStore (some "not-an-email")).response = genericMessage
    ∧ (POST sampleResetEnv sampleResetStore (some "not-an-email")).response.status = 200
    ∧ (POST sampleResetEnv sampleResetStore (some "not-an-email")).effects
        = [.connectDB, .userFindOne "not-an-email"]
    ∧ credentialStoreAccesses
        (POST sampleResetEnv sampleResetStore (some "not-an-email")).effects = 1 := by
  decide

/-- C12, amended. `POST` does not validate the email: for every email string, well-formed or
not, the response status is 200 or 500, never a 4xx; once the database connection is up the
string, lowercased by the runtime's `toLowerCase`, is looked up in the credential store,
exactly once; and when it matches no
user the reset-token store is not accessed and, the lookup resolving, the response is the 200
generic message. -/
theorem post_has_no_validation (env : ResetEnv) (s : ResetStore) (email : String) :
    ((POST env s (some email)).response.status = 200
      ∨ (POST env s (some email)).response.status = 500)
    ∧ (env.connectDB = true →
        credentialStoreAccesses (POST env s (some email)).effects = 1
        ∧ Effect.userFindOne (env.toLowerCase email) ∈ (POST env s (some email)).effects)
    ∧ ((∀ u ∈ s.users, u.email ≠ env.toLowerCase email) →
        tokenStoreAccesses (POST env s (some email)).effects = 0
        ∧ (env.connectDB = true → env.userCall = true →
            (POST env s (some email)).response = genericMessage)) := by
  refine ⟨?_, ?_, ?_⟩
  · cases hf : findUser s.users (env.toLowerCase email) <;>
      cases hc : env.connectDB <;> cases hq : env.userCall <;> cases hcr : env.tokenCreate <;>
      cases ht : env.createTransporter <;> cases hm : env.sendMail <;>
      cases hd : env.tokenDelete <;>
      simp [POST, onEmailError, hf, hc, hq, hcr, ht, hm, hd, genericMessage,
        processingFailure, sendFailure]
  · intro hc
    cases hf : findUser s.users (env.toLowerCase email) <;>
      cases hq : env.userCall <;> cases hcr : env.tokenCreate <;>
      cases ht : env.createTransporter <;> cases hm : env.sendMail <;>
      cases hd : env.tokenDelete <;>
      simp [POST, onEmailError, hf, hc, hq, hcr, ht, hm, hd, credentialStoreAccesses,
        List.countP_cons, List.countP_append]
  · intro hno
    have hf := findUser_eq_none s.users (env.toLowerCase email) hno
    cases hc : env.connectDB <;> cases hq : env.userCall <;>
      simp [POST, hf, hc, hq, tokenStoreAccesses, genericMessage]

/-- Witness for C12 amended: the string `not-an-email` in the sample environment. -/
theorem post_has_no_validation_witness :
    ((POST sampleResetEnv sampleResetStore (some "not-an-email")).response.status = 200
      ∨ (POST sampleResetEnv sampleResetStore (some "not-an-email")).response.status = 500)
    ∧ (sampleResetEnv.connectDB = true →
        credentialStoreAccesses
            (POST sampleResetEnv sampleResetStore (some "not-an-email")).effects = 1
        ∧ Effect.userFindOne (sampleResetEnv.toLowerCase "not-an-email")
            ∈ (POST sampleResetEnv sampleResetStore (some "not-an-email")).effects)
    ∧ ((∀ u ∈ sampleResetStore.users, u.email ≠ sampleResetEnv.toLowerCase "not-an-email") →
        tokenStoreAccesses
            (POST sampleResetEnv sampleResetStore (some "not-an-email")).effects = 0
        ∧ (sampleResetEnv.connectDB = true → sampleResetEnv.userCall = true →
            (POST sampleResetEnv sampleResetStore (some "not-an-email")).response
              = genericMessage)) :=
  post_has_no_validation sampleResetEnv sampleResetStore "not-an-email"

/-! ## C13: a write by a caller who is not the owner -/

/-- C13. For a stored inspection `d` and a caller whose session verifies to a user other than
its owner, `PUT` and `DELETE` on `d._id` leave the store as it was, every inspection record
and every counter document, whatever the body and whatever the store calls do. -/
theorem foreign_write_changes_nothing (env : Env) (s : Store) (d : Inspection)
    (tok u : String) (body : Option UpdateDoc)
    (hwf : s.wf) (hd : d ∈ s.inspections)
    (hu : env.jwtVerify tok = .ok u) (hne : u ≠ d.userId) :
    ((PUT env s ⟨d._id, some tok, body⟩).2 = s
      ∧ (DELETE env s ⟨d._id, some tok, body⟩).2 = s)
    ∧ (PUT env s ⟨d._id, some tok, body⟩).2.inspections = s.inspections
    ∧ (PUT env s ⟨d._id, some tok, body⟩).2.infos = s.infos
    ∧ (DELETE env s ⟨d._id, some tok, body⟩).2.inspections = s.inspections
    ∧ (DELETE env s ⟨d._id, some tok, body⟩).2.infos = s.infos := by
  have h1 : findOne s.inspections d._id u = none := findOne_foreign s d u hwf hd hne
  have hput : (PUT env s ⟨d._id, some tok, body⟩).2 = s := by
    rw [PUT_none env s _ tok u body hu h1]
    split
    · rfl
    split
    · rfl
    split <;> rfl
  have hdel : (DELETE env s ⟨d._id, some tok, body⟩).2 = s := by
    rw [DELETE_none env s _ tok u body hu h1]
    split
    · rfl
    split
    · rfl
    split <;> rfl
  refine ⟨⟨hput, hdel⟩, ?_, ?_, ?_, ?_⟩
  · rw [hput]
  · rw [hput]
  · rw [hdel]
  · rw [hdel]

/-- Witness for C13: Bob sends an owner-changing patch and a delete for Alice's inspection
`i1`. -/
theorem foreign_write_changes_nothing_witness :
    ((PUT sampleEnv sampleStore ⟨"i1", some "session-bob", some ownerPatch⟩).2 = sampleStore
      ∧ (DELETE sampleEnv sampleStore ⟨"i1", some "session-bob", some ownerPatch⟩).2
          = sampleStore)
    ∧ (PUT sampleEnv sampleStore ⟨"i1", some "session-bob", some ownerPatch⟩).2.inspections
        = sampleStore.inspections
    ∧ (PUT sampleEnv sampleStore ⟨"i1", some "session-bob", some ownerPatch⟩).2.infos
        = sampleStore.infos
    ∧ (DELETE sampleEnv sampleStore ⟨"i1", some "session-bob", some ownerPatch⟩).2.inspections
        = sampleStore.inspections
    ∧ (DELETE sampleEnv sampleStore ⟨"i1", some "session-bob", some ownerPatch⟩).2.infos
        = sampleStore.infos :=
  foreign_write_changes_nothing sampleEnv sampleStore bridge "session-bob" "bob"
    (some ownerPatch) (by decide) (by decide) rfl (by decide)

end Repospector
